import Mathlib

/-!
Shallow embedding of `CredentialParser/OutputHandler.py`.

The module defines a sink hierarchy: `OutputHandler` (base: lock, output
count, attach/detach reference counting) and `PostgresHandler` (batched
database sink: execute/commit/rollback/replay over a psycopg2 connection).
Database-driver calls are external effects; we model each call's outcome
through an `Oracle` and record the calls performed as an event trace, so
theorems can quantify over every possible driver behaviour.
-/

/-- A record: the parameter tuple passed to `handle`/`output`. -/
abbrev Params := List String

/-- Identity of a `threading.Lock` object (allocation identity). -/
abbrev LockId := Nat

/-- Outcome of `self.cursor.execute(self.query, params)` in `do_output`:
success, a raised `psycopg2.Error`, or a raised `UnicodeDecodeError`. -/
inductive ExecOut where
  | ok
  | pgErr
  | unicodeErr
deriving DecidableEq, Repr

/-- A Python exception escaping a modelled call (propagated to the caller). -/
inductive Exn where
  | pgError
  | valueError
deriving DecidableEq, Repr

/-- Observable driver calls made while handling one record. Failure events
correspond to the `logging` lines the code emits at those points. -/
inductive Ev where
  /-- the initial `cursor.execute` in `do_output`, with its outcome -/
  | exec (p : Params) (ok : Bool)
  /-- `UnicodeDecodeError` caught in `do_output` (logged via `logging.error`) -/
  | unicodeFail (p : Params)
  /-- `conn.commit()` inside `do_commit`, with its outcome -/
  | commit (ok : Bool)
  /-- `conn.rollback()` inside `rollback`, with its outcome -/
  | rollback (ok : Bool)
  /-- a `cursor.execute` replay inside `retry`, with its outcome -/
  | replayExec (p : Params) (ok : Bool)
  /-- the `conn.commit()` inside `retry`'s loop, with its outcome -/
  | replayCommit (ok : Bool)
deriving DecidableEq, Repr

/-- Oracle fixing the outcome of each external database call during one
`do_output` call: the initial execute, the commit in `do_commit`, the
rollback, and the i-th replay's execute and commit inside `retry`. -/
structure Oracle where
  execOut : ExecOut
  commitOk : Bool
  rollbackOk : Bool
  replayExecOk : Nat → Bool
  replayCommitOk : Nat → Bool

/-- State of a `PostgresHandler` relevant to batching and recovery:
`autocommit`, `commitfreq`, `uncommitted`, the bounded deque `history`
and its capacity `cap` (Python: `deque([], (self.commitfreq or 1000) * 2)`). -/
structure PG where
  autocommit : Bool
  commitfreq : Option Nat
  uncommitted : Nat
  history : List Params
  cap : Nat
deriving DecidableEq, Repr

/-- `collections.deque` append with `maxlen = cap`: the oldest entries are
evicted from the left when the buffer is full. -/
def dequeAppend (cap : Nat) (h : List Params) (p : Params) : List Params :=
  let h2 := h ++ [p]
  if cap < h2.length then h2.drop (h2.length - cap) else h2

/-- `PostgresHandler.__init__`: `uncommitted = 0`, empty history with
capacity `(commitfreq or 1000) * 2` (Python `or` treats `0` like `None`). -/
def pgInit (autocommit : Bool) (commitfreq : Option Nat) : PG :=
  { autocommit := autocommit
    commitfreq := commitfreq
    uncommitted := 0
    history := []
    cap := 2 * (match commitfreq with
                | some f => if f = 0 then 1000 else f
                | none => 1000) }

/-- `PostgresHandler.do_commit`: attempts `conn.commit()`, swallowing a
`psycopg2.Error` into a log line. Never raises; returns the events. -/
def do_commit (ok : Bool) : List Ev := [Ev.commit ok]

/-- `PostgresHandler.check_commit`: no-op under autocommit or without a
`commitfreq`; otherwise, when `uncommitted >= commitfreq`, calls
`do_commit` and then unconditionally resets `uncommitted` to 0 (the reset
happens whether or not the commit succeeded, since `do_commit` swallows
the error). -/
def check_commit (s : PG) (commitOk : Bool) : PG × List Ev :=
  if s.autocommit then (s, [])
  else
    match s.commitfreq with
    | none => (s, [])
    | some f =>
        if f ≤ s.uncommitted then ({ s with uncommitted := 0 }, do_commit commitOk)
        else (s, [])

/-- Events of `retry`'s replay loop over the sliced history entries,
`i` being the loop index: each entry is executed once; on execute success
the loop immediately attempts `conn.commit()`; on execute failure
(caught `psycopg2.Error`) it only logs and moves to the next entry. -/
def replayEvents : List Params → Nat → Oracle → List Ev
  | [], _, _ => []
  | p :: rest, i, o =>
      if o.replayExecOk i then
        Ev.replayExec p true :: Ev.replayCommit (o.replayCommitOk i) ::
          replayEvents rest (i + 1) o
      else
        Ev.replayExec p false :: replayEvents rest (i + 1) o

/-- State effect of `retry`'s replay loop: `self.uncommitted = 0` runs only
after a replay whose execute and commit both succeeded; nothing else in the
handler state is touched. -/
def replayState (s : PG) : List Params → Nat → Oracle → PG
  | [], _, _ => s
  | _ :: rest, i, o =>
      let s1 := if o.replayExecOk i && o.replayCommitOk i then
                  { s with uncommitted := 0 }
                else s
      replayState s1 rest (i + 1) o

/-- Result of one `do_output` call: the handler state after the call, the
trace of driver calls, and the exception propagated to the caller, if any. -/
structure RunOut where
  state : PG
  events : List Ev
  raised : Option Exn
deriving Repr

/-- `PostgresHandler.retry(lastn)`: returns immediately when `lastn == 0`;
otherwise calls `rollback()` (unguarded: a `psycopg2.Error` there
propagates), then replays `islice(history, len(history)-lastn, len(history))`
— a negative start, i.e. `lastn > len(history)`, makes `islice` raise
`ValueError` — committing after each successful replay. -/
def retry (s : PG) (lastn : Nat) (o : Oracle) : RunOut :=
  if lastn = 0 then ⟨s, [], none⟩
  else if o.rollbackOk = false then ⟨s, [Ev.rollback false], some .pgError⟩
  else if s.history.length < lastn then ⟨s, [Ev.rollback true], some .valueError⟩
  else
    let entries := s.history.drop (s.history.length - lastn)
    ⟨replayState s entries 0 o, Ev.rollback true :: replayEvents entries 0 o, none⟩

/-- `PostgresHandler.do_output(params)`:
on execute success (autocommit false) append to `history`, then fall
through to `uncommitted += 1; check_commit()`;
on `psycopg2.Error` log and (autocommit false) call `retry(uncommitted)`,
then return;
on `UnicodeDecodeError` log — and then fall through to
`uncommitted += 1; check_commit()` (there is no early return on this path). -/
def do_output (s : PG) (p : Params) (o : Oracle) : RunOut :=
  match o.execOut with
  | .pgErr =>
      if s.autocommit then ⟨s, [Ev.exec p false], none⟩
      else
        let r := retry s s.uncommitted o
        ⟨r.state, Ev.exec p false :: r.events, r.raised⟩
  | .unicodeErr =>
      let s1 := { s with uncommitted := s.uncommitted + 1 }
      let r := check_commit s1 o.commitOk
      ⟨r.1, Ev.unicodeFail p :: r.2, none⟩
  | .ok =>
      let s1 := if s.autocommit then s
                else { s with history := dequeAppend s.cap s.history p }
      let s2 := { s1 with uncommitted := s1.uncommitted + 1 }
      let r := check_commit s2 o.commitOk
      ⟨r.1, Ev.exec p true :: r.2, none⟩

/-- Base-handler state around a `PostgresHandler`: the dispatch counter
`output_count` maintained by `OutputHandler.output`. -/
structure Handler where
  output_count : Nat
  pg : PG
deriving Repr

/-- Result of one `OutputHandler.output` call. -/
structure HandlerOut where
  handler : Handler
  events : List Ev
  raised : Option Exn
deriving Repr

/-- `OutputHandler.output(params)`: acquires the lock, increments
`output_count`, then calls `do_output`. The increment precedes `do_output`,
so it happens even when `do_output` raises. -/
def output (h : Handler) (p : Params) (o : Oracle) : HandlerOut :=
  let c := h.output_count + 1
  let r := do_output h.pg p o
  ⟨⟨c, r.state⟩, r.events, r.raised⟩

/-- Result of a sequence of `do_output` calls. -/
structure SeqOut where
  state : PG
  traces : List (List Ev)
  raised : Option Exn
deriving Repr

/-- Run a sequence of `do_output` calls, threading the handler state and
collecting each call's trace. An exception aborts the sequence (the caller
never regains the non-reentrant lock, so no further call runs). -/
def runSeq (s : PG) : List (Params × Oracle) → SeqOut
  | [] => ⟨s, [], none⟩
  | (p, o) :: rest =>
      let r := do_output s p o
      match r.raised with
      | some e => ⟨r.state, [r.events], some e⟩
      | none =>
          let q := runSeq r.state rest
          ⟨q.state, r.events :: q.traces, q.raised⟩

/-- Is this event a rollback call? -/
def isRollback : Ev → Bool
  | .rollback _ => true
  | _ => false

/-- Is this event a `do_commit` commit call? -/
def isCommitEv : Ev → Bool
  | .commit _ => true
  | _ => false

/-- Number of rollback calls in a trace. -/
def rollbackCount (evs : List Ev) : Nat := (evs.filter isRollback).length

/-- Number of `do_commit` commit calls in a trace. -/
def commitCount (evs : List Ev) : Nat := (evs.filter isCommitEv).length

/-- The parameter tuples replayed by `retry`, in execution order. -/
def replayParams (evs : List Ev) : List Params :=
  evs.filterMap fun e =>
    match e with
    | .replayExec p _ => some p
    | _ => none

/-- Every successful replay execute is immediately followed by its own
commit call. -/
def commitAfterReplay : List Ev → Bool
  | [] => true
  | .replayExec _ true :: rest =>
      match rest with
      | .replayCommit _ :: rest2 => commitAfterReplay rest2
      | _ => false
  | _ :: rest => commitAfterReplay rest

/-- Lifecycle operations on the base `OutputHandler`. -/
inductive LifeOp where
  | attach
  | detach
deriving DecidableEq, Repr

/-- Lifecycle state: `attached_count` (a plain Python int, so it can go
negative) and the number of times `done()` has been invoked. -/
structure Life where
  attached_count : Int
  doneCount : Nat
deriving DecidableEq, Repr

/-- `OutputHandler.attach` / `OutputHandler.detach`: `detach` decrements
and invokes `done()` whenever the decremented count equals exactly 0. -/
def lifeStep (s : Life) : LifeOp → Life
  | .attach => { s with attached_count := s.attached_count + 1 }
  | .detach =>
      let a := s.attached_count - 1
      { attached_count := a
        doneCount := if a = 0 then s.doneCount + 1 else s.doneCount }

/-- Run a sequence of attach/detach calls. -/
def lifeRun (s : Life) (ops : List LifeOp) : Life := ops.foldl lifeStep s

/-- Freshly constructed handler: `attached_count = 0`, `done` never run. -/
def lifeInit : Life := ⟨0, 0⟩

/-- The default lock: `OutputHandler.__init__(self, lock=Lock())` evaluates
`Lock()` once, when the `def` statement runs at class-definition time, so
every construction that omits the argument receives this one object. -/
def outputHandlerDefaultLock : LockId := 0

/-- `PrintHandler.lock = Lock()`: the class-level lock evaluated once in the
class body and passed explicitly by `PrintHandler.__init__` to `super()`. -/
def printHandlerClassLock : LockId := 1

/-- The base-handler fields set by `OutputHandler.__init__` that carry
object identity: the lock. -/
structure BaseHandler where
  lock : LockId
deriving DecidableEq, Repr

/-- `OutputHandler.__init__(self, lock=Lock())`: an explicit argument is
used as given; omitting it yields the shared default lock object. -/
def mkOutputHandler (lockArg : Option LockId) : BaseHandler :=
  ⟨match lockArg with
    | some l => l
    | none => outputHandlerDefaultLock⟩

/-- The k-th `PostgresHandler` constructed with default arguments: its
`__init__` ends with `super().__init__()`, passing no lock. The instance
index `k` plays no role in the lock the instance receives. -/
def mkPostgresInstance (_k : Nat) : BaseHandler := mkOutputHandler none

/-- The k-th `FileHandler` constructed with default arguments: its
`__init__` calls `super().__init__()`, passing no lock. -/
def mkFileInstance (_k : Nat) : BaseHandler := mkOutputHandler none

/-- The k-th `PrintHandler`: its `__init__` calls
`super().__init__(PrintHandler.lock)`. -/
def mkPrintInstance (_k : Nat) : BaseHandler :=
  mkOutputHandler (some printHandlerClassLock)

/-- Oracle under which every driver call succeeds. -/
def allOkOracle : Oracle :=
  ⟨.ok, true, true, fun _ => true, fun _ => true⟩

/-- Oracle under which the initial execute raises `psycopg2.Error` and every
other driver call succeeds. -/
def writeFailOracle : Oracle :=
  ⟨.pgErr, true, true, fun _ => true, fun _ => true⟩

/-- Oracle under which the initial execute raises `UnicodeDecodeError`. -/
def unicodeFailOracle : Oracle :=
  ⟨.unicodeErr, true, true, fun _ => true, fun _ => true⟩

/-- Oracle under which the execute succeeds but `conn.commit()` fails. -/
def commitFailOracle : Oracle :=
  ⟨.ok, false, true, fun _ => true, fun _ => true⟩

/-- Oracle under which the initial execute raises `psycopg2.Error` and the
subsequent `conn.rollback()` raises as well. -/
def rollbackFailOracle : Oracle :=
  ⟨.pgErr, true, false, fun _ => true, fun _ => true⟩

/-- Claim C10 (confirmed): every single `output` call increments
`output_count` by exactly one, for every record and every outcome of the
underlying execute/commit/rollback calls — the counter counts dispatch
attempts, not successfully recorded records. -/
theorem C10_output_count_increments (h : Handler) (p : Params) (o : Oracle) :
    (output h p o).handler.output_count = h.output_count + 1 := rfl

/-- `lifeRun` over a concatenation splits into two runs. -/
theorem lifeRun_append (s : Life) (xs ys : List LifeOp) :
    lifeRun s (xs ++ ys) = lifeRun (lifeRun s xs) ys := by
  simp [lifeRun, List.foldl_append]

/-- A block of `n` attach calls adds `n` to the count and never runs
`done()`. -/
theorem lifeRun_attach_replicate (n : Nat) (a : Int) (f : Nat) :
    lifeRun ⟨a, f⟩ (List.replicate n .attach) = ⟨a + n, f⟩ := by
  induction n generalizing a with
  | zero => simp [lifeRun]
  | succ n ih =>
      rw [List.replicate_succ]
      show lifeRun (lifeStep ⟨a, f⟩ .attach) (List.replicate n .attach) = _
      rw [show lifeStep ⟨a, f⟩ .attach = ⟨a + 1, f⟩ from rfl, ih]
      congr 1
      push_cast
      ring

/-- A block of `j` detach calls subtracts `j` and runs `done()` exactly
once when the starting count lies in `[1, j]` (the count passes through 0),
and never otherwise. -/
theorem lifeRun_detach_replicate (j : Nat) (a : Int) (f : Nat) :
    (lifeRun ⟨a, f⟩ (List.replicate j .detach)).attached_count = a - j ∧
    (lifeRun ⟨a, f⟩ (List.replicate j .detach)).doneCount =
      f + (if 1 ≤ a ∧ a ≤ (j : Int) then 1 else 0) := by
  induction j generalizing a f with
  | zero =>
      refine ⟨by simp [lifeRun], ?_⟩
      simp only [lifeRun, List.replicate, List.foldl_nil]
      split_ifs with h
      · omega
      · omega
  | succ j ih =>
      rw [List.replicate_succ]
      have h1 : lifeRun ⟨a, f⟩ (LifeOp.detach :: List.replicate j .detach) =
          lifeRun ⟨a - 1, if a - 1 = 0 then f + 1 else f⟩
            (List.replicate j .detach) := rfl
      rw [h1]
      rcases ih (a - 1) (if a - 1 = 0 then f + 1 else f) with ⟨hA, hD⟩
      refine ⟨by rw [hA]; push_cast; ring, ?_⟩
      rw [hD]
      push_cast
      split_ifs <;> omega

/-- Claim C7 (counterexample): in the sequence attach; detach; attach;
detach, `detach()` is invoked exactly as many times as `attach()`, yet
`done()` (finalize) runs twice, not exactly once — the count reaches 0
twice. -/
theorem C7_counterexample :
    ([LifeOp.attach, .detach, .attach, .detach].count LifeOp.attach =
       [LifeOp.attach, .detach, .attach, .detach].count LifeOp.detach) ∧
    (lifeRun lifeInit [LifeOp.attach, .detach, .attach, .detach]).doneCount
      = 2 := by
  decide

/-- Claim C7 (corrected): for `n ≥ 1` attach calls followed by `n + m`
detach calls, `finalize` (`done`) runs exactly once — extra detach calls
beyond the matching count never run it again. `finalize` runs once each
time the count returns to zero, so interleavings that reach zero several
times finalize several times. After attach; attach; detach the sink stays
open (`attached_count = 1`) and a second detach closes it. -/
theorem C7_amended_lifecycle (n m : Nat) (hn : 0 < n) :
    (lifeRun lifeInit
      (List.replicate n .attach ++ List.replicate (n + m) .detach)).doneCount
        = 1 ∧
    (lifeRun lifeInit [LifeOp.attach, .attach, .detach]).attached_count = 1 ∧
    (lifeRun lifeInit [LifeOp.attach, .attach, .detach, .detach]).doneCount
      = 1 := by
  refine ⟨?_, by decide, by decide⟩
  rw [lifeRun_append]
  have h0 : lifeRun lifeInit (List.replicate n .attach) = ⟨(n : Int), 0⟩ := by
    have := lifeRun_attach_replicate n 0 0
    simpa [lifeInit] using this
  rw [h0]
  rcases lifeRun_detach_replicate (n + m) n 0 with ⟨_, hD⟩
  rw [hD]
  push_cast
  split_ifs <;> omega

/-- Claim C7 witness: the amended statement at `n = 2`, `m = 1`. -/
theorem C7_amended_witness :
    0 < 2 ∧
    ((lifeRun lifeInit
       (List.replicate 2 .attach ++ List.replicate (2 + 1) .detach)).doneCount
         = 1 ∧
     (lifeRun lifeInit [LifeOp.attach, .attach, .detach]).attached_count = 1 ∧
     (lifeRun lifeInit [LifeOp.attach, .attach, .detach, .detach]).doneCount
       = 1) :=
  ⟨by decide, C7_amended_lifecycle 2 1 (by decide)⟩

/-- Claim C9 (counterexample): two distinct `PostgresHandler` instances
constructed with default arguments receive the exact same lock object —
the mutable default `lock=Lock()` is evaluated once at class-definition
time — refuting "never the same lock object". -/
theorem C9_counterexample :
    (mkPostgresInstance 0).lock = (mkPostgresInstance 1).lock := rfl

/-- Claim C9 (corrected): every Database or file sink constructed with
default arguments shares the single module-level default lock object
(created once when `OutputHandler` is defined); only `PrintHandler`
passes a lock explicitly, its class-level lock shared among
`PrintHandler` instances and distinct from the default. -/
theorem C9_amended_shared_default_lock (i j : Nat) :
    (mkPostgresInstance i).lock = outputHandlerDefaultLock ∧
    (mkFileInstance j).lock = outputHandlerDefaultLock ∧
    (mkPostgresInstance i).lock = (mkFileInstance j).lock ∧
    (mkPrintInstance i).lock = printHandlerClassLock ∧
    printHandlerClassLock ≠ outputHandlerDefaultLock :=
  ⟨rfl, rfl, rfl, rfl, by decide⟩

/-- Claim C1 (counterexample): with `commitfreq = 1`, autocommit false, a
successful write reaches the threshold and the automatic commit is
attempted and fails — yet `uncommitted` ends at 0, not at its pre-commit
value 1: `check_commit` resets the counter unconditionally because
`do_commit` swallows the error. -/
theorem C1_counterexample :
    Ev.commit false ∈
      (do_output (pgInit false (some 1)) ["a", "1"] commitFailOracle).events ∧
    (do_output (pgInit false (some 1)) ["a", "1"]
        commitFailOracle).state.uncommitted = 0 := by
  decide

/-- Claim C1 (corrected): when an automatic commit is attempted because the
threshold is reached and the commit call fails, the failure is only
logged and nothing is raised, but `uncommitted` is reset to 0 (not left
unchanged): `do_commit` swallows the `psycopg2.Error`, so `check_commit`
cannot observe the failure and resets unconditionally. -/
theorem C1_amended_commit_fail_resets (s : PG) (p : Params) (o : Oracle)
    (k : Nat) (hac : s.autocommit = false) (hf : s.commitfreq = some k)
    (he : o.execOut = .ok) (hc : o.commitOk = false)
    (hk : k ≤ s.uncommitted + 1) :
    Ev.commit false ∈ (do_output s p o).events ∧
    (do_output s p o).state.uncommitted = 0 ∧
    (do_output s p o).raised = none := by
  simp [do_output, he, hac, check_commit, hf, hk, do_commit, hc]

/-- Claim C1 witness: the amended statement at a concrete input. -/
theorem C1_amended_witness :
    ((pgInit false (some 2)).autocommit = false ∧
      (pgInit false (some 2)).commitfreq = some 2 ∧
      commitFailOracle.execOut = ExecOut.ok ∧
      commitFailOracle.commitOk = false ∧
      2 ≤ (pgInit false (some 2)).uncommitted + 1 + 1) ∧
    (Ev.commit false ∈
       (do_output (do_output (pgInit false (some 2)) ["a", "1"]
           commitFailOracle).state ["b", "2"] commitFailOracle).events ∧
     (do_output (do_output (pgInit false (some 2)) ["a", "1"]
         commitFailOracle).state ["b", "2"]
         commitFailOracle).state.uncommitted = 0 ∧
     (do_output (do_output (pgInit false (some 2)) ["a", "1"]
         commitFailOracle).state ["b", "2"] commitFailOracle).raised
       = none) :=
  ⟨⟨rfl, rfl, rfl, rfl, by decide⟩,
   C1_amended_commit_fail_resets
     (do_output (pgInit false (some 2)) ["a", "1"] commitFailOracle).state
     ["b", "2"] commitFailOracle 2 rfl rfl rfl rfl (by decide)⟩

/-- The four-step scenario of the spec: three successful writes, then a
write that fails at the driver level, against a sink with
`commitfreq = 3` (autocommit false). -/
def c2steps : List (Params × Oracle) :=
  [(["a", "1"], allOkOracle), (["b", "2"], allOkOracle),
   (["c", "3"], allOkOracle), (["d", "4"], writeFailOracle)]

/-- Claim C2 (counterexample): in the spec's scenario the fourth, failing
write finds `uncommitted = 0` (the third write's commit reset it), so
`retry(0)` returns immediately: the whole run contains zero rollbacks and
zero replay attempts, not one rollback and one replay of ("d","4"). -/
theorem C2_counterexample :
    rollbackCount (runSeq (pgInit false (some 3)) c2steps).traces.flatten = 0 ∧
    replayParams (runSeq (pgInit false (some 3)) c2steps).traces.flatten
      = [] := by
  decide

/-- Claim C2 (corrected): the first three writes behave as claimed — one
commit issued on the third write, `uncommitted = 0`, history holding all
three tuples — but the fourth write's driver-level failure finds
`uncommitted = 0`, so recovery is a no-op: no rollback and no replay
occur, the failure is only logged (nothing is raised), ("d","4") is not
recorded in history, and `uncommitted` stays 0. -/
theorem C2_amended_scenario :
    (runSeq (pgInit false (some 3)) c2steps).state.uncommitted = 0 ∧
    (runSeq (pgInit false (some 3)) c2steps).state.history
      = [["a", "1"], ["b", "2"], ["c", "3"]] ∧
    commitCount (runSeq (pgInit false (some 3)) c2steps).traces.flatten = 1 ∧
    (runSeq (pgInit false (some 3)) c2steps).traces.getD 2 []
      = [Ev.exec ["c", "3"] true, Ev.commit true] ∧
    (runSeq (pgInit false (some 3)) c2steps).traces.getD 3 []
      = [Ev.exec ["d", "4"] false] ∧
    (runSeq (pgInit false (some 3)) c2steps).raised = none := by
  decide

/-- Claim C4 (counterexample): a record whose fields fail to decode
(`UnicodeDecodeError`) against a fresh sink is logged and dropped from
history, and no rollback occurs — but `uncommitted` ends at 1, not 0:
the handler falls through and increments the counter for the dropped
record. -/
theorem C4_counterexample :
    (do_output (pgInit false (some 3)) ["x", "y"]
        unicodeFailOracle).state.uncommitted = 1 ∧
    (do_output (pgInit false (some 3)) ["x", "y"]
        unicodeFailOracle).state.history = [] ∧
    rollbackCount
      (do_output (pgInit false (some 3)) ["x", "y"]
        unicodeFailOracle).events = 0 := by
  decide

/-- Claim C4 (corrected): on a decoding failure the record is logged and
dropped from history, no rollback is triggered and nothing is raised —
but `uncommitted` IS incremented for the dropped record (when the commit
threshold is not reached by that increment, the counter ends at its old
value plus one). -/
theorem C4_amended_unicode_increments (s : PG) (p : Params) (o : Oracle)
    (f : Nat) (he : o.execOut = .unicodeErr) (hac : s.autocommit = false)
    (hf : s.commitfreq = some f) (hlt : s.uncommitted + 1 < f) :
    (do_output s p o).state.history = s.history ∧
    (do_output s p o).state.uncommitted = s.uncommitted + 1 ∧
    rollbackCount (do_output s p o).events = 0 ∧
    (do_output s p o).raised = none := by
  simp [do_output, he, check_commit, hac, hf, Nat.not_le.mpr hlt,
    rollbackCount, isRollback]

/-- Claim C4 witness: the amended statement at a concrete input. -/
theorem C4_amended_witness :
    (unicodeFailOracle.execOut = ExecOut.unicodeErr ∧
      (pgInit false (some 3)).autocommit = false ∧
      (pgInit false (some 3)).uncommitted + 1 < 3) ∧
    ((do_output (pgInit false (some 3)) ["x", "y"]
        unicodeFailOracle).state.history = (pgInit false (some 3)).history ∧
     (do_output (pgInit false (some 3)) ["x", "y"]
        unicodeFailOracle).state.uncommitted
       = (pgInit false (some 3)).uncommitted + 1 ∧
     rollbackCount
       (do_output (pgInit false (some 3)) ["x", "y"]
         unicodeFailOracle).events = 0 ∧
     (do_output (pgInit false (some 3)) ["x", "y"]
        unicodeFailOracle).raised = none) :=
  ⟨⟨rfl, rfl, by decide⟩,
   C4_amended_unicode_increments (pgInit false (some 3)) ["x", "y"]
     unicodeFailOracle 3 rfl rfl rfl (by decide)⟩

/-- Claim C6 (counterexample): a single decoding-failed handle call against
a fresh sink (autocommit false, `commitfreq = 3`) leaves
`uncommitted = 1 > 0 = len(history)`, violating the invariant
`uncommitted ≤ len(history)`. -/
theorem C6_counterexample :
    (runSeq (pgInit false (some 3))
        [(["x", "y"], unicodeFailOracle)]).state.history.length <
    (runSeq (pgInit false (some 3))
        [(["x", "y"], unicodeFailOracle)]).state.uncommitted := by
  decide

/-- Claim C8 (counterexample): a successful write followed by a failing
write whose recovery rollback itself raises a `psycopg2.Error` propagates
that exception to the caller of `handle` — `rollback()` is not guarded by
a try/except. -/
theorem C8_counterexample :
    (runSeq (pgInit false (some 3))
        [(["a", "1"], allOkOracle),
         (["b", "2"], rollbackFailOracle)]).raised = some Exn.pgError := by
  decide

/-- Claim C8 (corrected): `handle` raises nothing for execute, commit, or
replay errors — provided the recovery rollback itself succeeds and the
uncommitted counter does not exceed the history length (a raising
rollback, or a replay window larger than the history, propagates). -/
theorem C8_amended_no_raise (s : PG) (p : Params) (o : Oracle)
    (hrb : o.rollbackOk = true) (hn : s.uncommitted ≤ s.history.length) :
    (do_output s p o).raised = none := by
  cases he : o.execOut with
  | ok => simp [do_output, he]
  | unicodeErr => simp [do_output, he]
  | pgErr =>
      by_cases hac : s.autocommit
      · simp [do_output, he, hac]
      · rcases Nat.eq_zero_or_pos s.uncommitted with h0 | hpos
        · simp [do_output, he, hac, retry, h0]
        · simp [do_output, he, hac, retry, hrb, Nat.not_lt.mpr hn,
            Nat.pos_iff_ne_zero.mp hpos]

/-- A driver-error state with one uncommitted entry present in history. -/
def c8state : PG :=
  { autocommit := false, commitfreq := some 3, uncommitted := 1,
    history := [["a", "1"]], cap := 6 }

/-- Claim C8 witness: the amended statement at a concrete input. -/
theorem C8_amended_witness :
    (writeFailOracle.rollbackOk = true ∧
      c8state.uncommitted ≤ c8state.history.length) ∧
    (do_output c8state ["b", "2"] writeFailOracle).raised = none :=
  ⟨⟨rfl, by decide⟩,
   C8_amended_no_raise c8state ["b", "2"] writeFailOracle rfl (by decide)⟩

/-- The replay loop never issues a rollback. -/
theorem replayEvents_no_rollback (entries : List Params) (i : Nat)
    (o : Oracle) : rollbackCount (replayEvents entries i o) = 0 := by
  induction entries generalizing i with
  | nil => simp [replayEvents, rollbackCount]
  | cons p rest ih =>
      by_cases h : o.replayExecOk i
      · simpa [replayEvents, h, rollbackCount, isRollback] using ih (i + 1)
      · simpa [replayEvents, h, rollbackCount, isRollback] using ih (i + 1)

/-- The replay loop executes exactly the sliced entries, in order, once
each. -/
theorem replayEvents_params (entries : List Params) (i : Nat) (o : Oracle) :
    replayParams (replayEvents entries i o) = entries := by
  induction entries generalizing i with
  | nil => simp [replayEvents, replayParams]
  | cons p rest ih =>
      by_cases h : o.replayExecOk i
      · simpa [replayEvents, h, replayParams] using ih (i + 1)
      · simpa [replayEvents, h, replayParams] using ih (i + 1)

/-- In the replay loop, every successful replay execute is immediately
followed by its own commit call. -/
theorem replayEvents_commitAfter (entries : List Params) (i : Nat)
    (o : Oracle) : commitAfterReplay (replayEvents entries i o) = true := by
  induction entries generalizing i with
  | nil => rfl
  | cons p rest ih =>
      by_cases h : o.replayExecOk i
      · simpa [replayEvents, h, commitAfterReplay] using ih (i + 1)
      · simpa [replayEvents, h, commitAfterReplay] using ih (i + 1)

/-- Claim C3 (confirmed): on a driver write failure with
`uncommitted = n ≤ len(history)` and a succeeding rollback: if `n = 0` no
rollback is issued (and nothing is replayed); if `n > 0` exactly one
rollback is issued first, then at most n replay attempts taken one at a
time from the last n entries of history (each entry attempted exactly
once — a failed replay is logged and not retried), each successful replay
immediately followed by its own commit attempt. -/
theorem C3_retry_protocol (s : PG) (p : Params) (o : Oracle)
    (hac : s.autocommit = false) (he : o.execOut = .pgErr)
    (hrb : o.rollbackOk = true) (hn : s.uncommitted ≤ s.history.length) :
    (s.uncommitted = 0 →
       rollbackCount (do_output s p o).events = 0 ∧
       replayParams (do_output s p o).events = []) ∧
    (0 < s.uncommitted →
       ∃ tail,
         (do_output s p o).events
           = Ev.exec p false :: Ev.rollback true :: tail ∧
         rollbackCount tail = 0 ∧
         replayParams tail
           = s.history.drop (s.history.length - s.uncommitted) ∧
         (replayParams tail).length ≤ s.uncommitted ∧
         commitAfterReplay tail = true) := by
  constructor
  · intro h0
    simp [do_output, he, hac, retry, h0, rollbackCount, replayParams,
      isRollback]
  · intro hpos
    have hne : ¬ s.uncommitted = 0 := Nat.pos_iff_ne_zero.mp hpos
    refine ⟨replayEvents
      (s.history.drop (s.history.length - s.uncommitted)) 0 o,
      ?_, replayEvents_no_rollback _ 0 o, replayEvents_params _ 0 o,
      ?_, replayEvents_commitAfter _ 0 o⟩
    · simp [do_output, he, hac, retry, hne, hrb, Nat.not_lt.mpr hn]
    · rw [replayEvents_params]
      simp only [List.length_drop]
      omega

/-- A recovery state: two uncommitted entries, three entries of history. -/
def c3state : PG :=
  { autocommit := false, commitfreq := some 3, uncommitted := 2,
    history := [["a", "1"], ["b", "2"], ["c", "3"]], cap := 6 }

/-- Claim C3 witness: the protocol statement at a concrete input. -/
theorem C3_witness :
    (c3state.autocommit = false ∧ writeFailOracle.execOut = ExecOut.pgErr ∧
      writeFailOracle.rollbackOk = true ∧
      c3state.uncommitted ≤ c3state.history.length) ∧
    ((c3state.uncommitted = 0 →
        rollbackCount
          (do_output c3state ["d", "4"] writeFailOracle).events = 0 ∧
        replayParams
          (do_output c3state ["d", "4"] writeFailOracle).events = []) ∧
     (0 < c3state.uncommitted →
        ∃ tail,
          (do_output c3state ["d", "4"] writeFailOracle).events
            = Ev.exec ["d", "4"] false :: Ev.rollback true :: tail ∧
          rollbackCount tail = 0 ∧
          replayParams tail
            = c3state.history.drop
                (c3state.history.length - c3state.uncommitted) ∧
          (replayParams tail).length ≤ c3state.uncommitted ∧
          commitAfterReplay tail = true)) :=
  ⟨⟨rfl, rfl, rfl, by decide⟩,
   C3_retry_protocol c3state ["d", "4"] writeFailOracle rfl rfl rfl
     (by decide)⟩

/-- A step that raises aborts the sequence with that step's state. -/
theorem runSeq_cons_raise (s : PG) (p : Params) (o : Oracle)
    (rest : List (Params × Oracle)) (e : Exn)
    (hra : (do_output s p o).raised = some e) :
    runSeq s ((p, o) :: rest)
      = ⟨(do_output s p o).state, [(do_output s p o).events], some e⟩ := by
  simp [runSeq, hra]

/-- A step that raises nothing continues the sequence from its state. -/
theorem runSeq_cons_ok (s : PG) (p : Params) (o : Oracle)
    (rest : List (Params × Oracle))
    (hra : (do_output s p o).raised = none) :
    runSeq s ((p, o) :: rest)
      = ⟨(runSeq (do_output s p o).state rest).state,
         (do_output s p o).events ::
           (runSeq (do_output s p o).state rest).traces,
         (runSeq (do_output s p o).state rest).raised⟩ := by
  simp [runSeq, hra]

/-- A successful write that reaches the commit threshold: one commit event
after the execute, counter reset to 0, configuration fields untouched. -/
theorem do_output_ok_commit (s : PG) (p : Params) (o : Oracle) (k : Nat)
    (hac : s.autocommit = false) (hf : s.commitfreq = some k)
    (he : o.execOut = .ok) (hge : k ≤ s.uncommitted + 1) :
    (do_output s p o).state.uncommitted = 0 ∧
    (do_output s p o).state.autocommit = false ∧
    (do_output s p o).state.commitfreq = some k ∧
    (do_output s p o).events = [Ev.exec p true, Ev.commit o.commitOk] ∧
    (do_output s p o).raised = none := by
  simp [do_output, he, hac, check_commit, hf, hge, do_commit]

/-- A successful write below the commit threshold: no commit event, counter
incremented, configuration fields untouched. -/
theorem do_output_ok_nocommit (s : PG) (p : Params) (o : Oracle) (k : Nat)
    (hac : s.autocommit = false) (hf : s.commitfreq = some k)
    (he : o.execOut = .ok) (hlt : s.uncommitted + 1 < k) :
    (do_output s p o).state.uncommitted = s.uncommitted + 1 ∧
    (do_output s p o).state.autocommit = false ∧
    (do_output s p o).state.commitfreq = some k ∧
    (do_output s p o).events = [Ev.exec p true] ∧
    (do_output s p o).raised = none := by
  simp [do_output, he, hac, check_commit, hf, Nat.not_le.mpr hlt]

/-- Commit calls in a concatenated trace add up. -/
theorem commitCount_append (a b : List Ev) :
    commitCount (a ++ b) = commitCount a + commitCount b := by
  simp [commitCount, List.filter_append]

/-- Batching arithmetic for all-successful runs: starting below the
threshold `k`, after the run the counter equals the write count modulo
`k`, the total number of commit calls is the write count divided by `k`,
and the i-th call's trace holds a commit exactly when it completes a
window of `k` writes. -/
theorem runSeq_ok_general (k : Nat) (steps : List (Params × Oracle)) :
    ∀ s : PG, 0 < k → s.autocommit = false → s.commitfreq = some k →
      s.uncommitted < k →
      (∀ st ∈ steps, (st.2).execOut = ExecOut.ok) →
      (runSeq s steps).raised = none ∧
      (runSeq s steps).traces.length = steps.length ∧
      (runSeq s steps).state.uncommitted
        = (s.uncommitted + steps.length) % k ∧
      commitCount (runSeq s steps).traces.flatten
        = (s.uncommitted + steps.length) / k ∧
      (∀ i, i < steps.length →
        commitCount ((runSeq s steps).traces.getD i [])
          = if (s.uncommitted + i + 1) % k = 0 then 1 else 0) := by
  induction steps with
  | nil =>
      intro s hk hac hf hj _
      refine ⟨rfl, rfl, ?_, ?_, ?_⟩
      · simpa [runSeq] using (Nat.mod_eq_of_lt hj).symm
      · simpa [runSeq, commitCount] using (Nat.div_eq_of_lt hj).symm
      · intro i hi
        exact absurd hi (Nat.not_lt_zero i)
  | cons st rest ih =>
      obtain ⟨p, o⟩ := st
      intro s hk hac hf hj hall
      have he : o.execOut = ExecOut.ok := hall (p, o) (List.mem_cons_self _ _)
      have hrest : ∀ st ∈ rest, (st.2).execOut = ExecOut.ok :=
        fun st h => hall st (List.mem_cons_of_mem _ h)
      by_cases hge : k ≤ s.uncommitted + 1
      · have hjk : s.uncommitted + 1 = k := by omega
        obtain ⟨hu, hac', hf', hev, hra⟩ :=
          do_output_ok_commit s p o k hac hf he hge
        rw [runSeq_cons_ok s p o rest hra]
        obtain ⟨q1, q2, q3, q4, q5⟩ :=
          ih (do_output s p o).state hk hac' hf'
            (by rw [hu]; exact hk) hrest
        refine ⟨q1, by simpa using q2, ?_, ?_, ?_⟩
        · show (runSeq (do_output s p o).state rest).state.uncommitted = _
          rw [q3, hu]
          have h2 : s.uncommitted + ((p, o) :: rest).length
              = rest.length + k := by
            simp [List.length_cons]
            omega
          rw [h2, Nat.add_mod_right]
          simp
        · show commitCount ((do_output s p o).events
              :: (runSeq (do_output s p o).state rest).traces).flatten = _
          rw [List.flatten_cons, commitCount_append, q4, hu, hev]
          have h2 : s.uncommitted + ((p, o) :: rest).length
              = rest.length + k := by
            simp [List.length_cons]
            omega
          rw [h2, Nat.add_div_right _ hk]
          simp [commitCount, isCommitEv]
          omega
        · intro i hi
          match i with
          | 0 =>
              show commitCount (do_output s p o).events = _
              rw [hev]
              have h2 : (s.uncommitted + 0 + 1) % k = 0 := by
                rw [show s.uncommitted + 0 + 1 = k by omega]
                exact Nat.mod_self k
              simp [commitCount, isCommitEv, h2]
          | Nat.succ i' =>
              show commitCount
                ((runSeq (do_output s p o).state rest).traces.getD i' [])
                  = _
              rw [q5 i' (by simpa using hi), hu]
              have h2 : s.uncommitted + (i' + 1) + 1 = (i' + 1) + k := by
                omega
              rw [h2, Nat.add_mod_right]
              simp
      · have hlt : s.uncommitted + 1 < k := by omega
        obtain ⟨hu, hac', hf', hev, hra⟩ :=
          do_output_ok_nocommit s p o k hac hf he hlt
        rw [runSeq_cons_ok s p o rest hra]
        obtain ⟨q1, q2, q3, q4, q5⟩ :=
          ih (do_output s p o).state hk hac' hf' (by omega) hrest
        refine ⟨q1, by simpa using q2, ?_, ?_, ?_⟩
        · show (runSeq (do_output s p o).state rest).state.uncommitted = _
          rw [q3, hu]
          have h2 : s.uncommitted + 1 + rest.length
              = s.uncommitted + ((p, o) :: rest).length := by
            simp [List.length_cons]
            omega
          rw [h2]
        · show commitCount ((do_output s p o).events
              :: (runSeq (do_output s p o).state rest).traces).flatten = _
          rw [List.flatten_cons, commitCount_append, q4, hu, hev]
          have h2 : s.uncommitted + 1 + rest.length
              = s.uncommitted + ((p, o) :: rest).length := by
            simp [List.length_cons]
            omega
          rw [h2]
          simp [commitCount, isCommitEv]
        · intro i hi
          match i with
          | 0 =>
              show commitCount (do_output s p o).events = _
              rw [hev]
              have h2 : (s.uncommitted + 0 + 1) % k = s.uncommitted + 1 := by
                simpa using Nat.mod_eq_of_lt hlt
              simp [commitCount, isCommitEv, h2]
          | Nat.succ i' =>
              show commitCount
                ((runSeq (do_output s p o).state rest).traces.getD i' [])
                  = _
              rw [q5 i' (by simpa using hi), hu]
              have h2 : s.uncommitted + 1 + i' + 1
                  = s.uncommitted + (i' + 1) + 1 := by omega
              rw [h2]

/-- Claim C5 (confirmed): with autocommit false and `commitfreq = k > 0`,
for every sequence of successful writes from construction: the counter
after N writes is `N % k`, exactly `N / k` commits are issued, and the
i-th write's trace holds its (single) commit exactly when `i` is a
multiple of `k` — the k-th write of each window triggers the commit and
the (k+1)-th starts a fresh window. -/
theorem C5_commit_every_k (k : Nat) (steps : List (Params × Oracle))
    (hk : 0 < k) (hall : ∀ st ∈ steps, (st.2).execOut = ExecOut.ok) :
    (runSeq (pgInit false (some k)) steps).state.uncommitted
      = steps.length % k ∧
    commitCount (runSeq (pgInit false (some k)) steps).traces.flatten
      = steps.length / k ∧
    (runSeq (pgInit false (some k)) steps).traces.length = steps.length ∧
    (∀ i, i < steps.length →
      commitCount ((runSeq (pgInit false (some k)) steps).traces.getD i [])
        = if (i + 1) % k = 0 then 1 else 0) ∧
    (runSeq (pgInit false (some k)) steps).raised = none := by
  obtain ⟨q1, q2, q3, q4, q5⟩ :=
    runSeq_ok_general k steps (pgInit false (some k)) hk rfl rfl hk hall
  refine ⟨by simpa [pgInit] using q3, by simpa [pgInit] using q4, q2, ?_, q1⟩
  intro i hi
  simpa [pgInit] using q5 i hi

/-- Three successful writes against a commit threshold of 2. -/
def c5steps : List (Params × Oracle) :=
  [(["a", "1"], allOkOracle), (["b", "2"], allOkOracle),
   (["c", "3"], allOkOracle)]

/-- Claim C5 witness: the statement at `k = 2` and three writes. -/
theorem C5_witness :
    (0 < 2 ∧ ∀ st ∈ c5steps, (st.2).execOut = ExecOut.ok) ∧
    ((runSeq (pgInit false (some 2)) c5steps).state.uncommitted
       = c5steps.length % 2 ∧
     commitCount (runSeq (pgInit false (some 2)) c5steps).traces.flatten
       = c5steps.length / 2 ∧
     (runSeq (pgInit false (some 2)) c5steps).traces.length
       = c5steps.length ∧
     (∀ i, i < c5steps.length →
       commitCount
         ((runSeq (pgInit false (some 2)) c5steps).traces.getD i [])
         = if (i + 1) % 2 = 0 then 1 else 0) ∧
     (runSeq (pgInit false (some 2)) c5steps).raised = none) :=
  ⟨⟨by decide, by decide⟩,
   C5_commit_every_k 2 c5steps (by decide) (by decide)⟩

/-- A bounded-deque append yields the smaller of `len + 1` and the
capacity. -/
theorem dequeAppend_length (cap : Nat) (h : List Params) (p : Params) :
    (dequeAppend cap h p).length = min (h.length + 1) cap := by
  simp only [dequeAppend]
  split_ifs with hc
  · simp only [List.length_drop, List.length_append,
      List.length_singleton] at hc ⊢
    omega
  · simp only [List.length_append, List.length_singleton] at hc ⊢
    omega

/-- The replay loop leaves every field but `uncommitted` untouched, and
never increases `uncommitted`. -/
theorem replayState_fields (entries : List Params) (i : Nat) (o : Oracle)
    (s : PG) :
    (replayState s entries i o).autocommit = s.autocommit ∧
    (replayState s entries i o).commitfreq = s.commitfreq ∧
    (replayState s entries i o).cap = s.cap ∧
    (replayState s entries i o).history = s.history ∧
    (replayState s entries i o).uncommitted ≤ s.uncommitted := by
  induction entries generalizing s i with
  | nil => simp [replayState]
  | cons p rest ih =>
      by_cases hb : (o.replayExecOk i && o.replayCommitOk i) = true
      · have h1 : replayState s (p :: rest) i o
            = replayState { s with uncommitted := 0 } rest (i + 1) o := by
          simp [replayState, hb]
        obtain ⟨a1, a2, a3, a4, a5⟩ := ih (i + 1) { s with uncommitted := 0 }
        rw [h1]
        exact ⟨a1, a2, a3, a4, le_trans a5 (Nat.zero_le _)⟩
      · have h1 : replayState s (p :: rest) i o
            = replayState s rest (i + 1) o := by
          simp [replayState, hb]
        obtain ⟨a1, a2, a3, a4, a5⟩ := ih (i + 1) s
        rw [h1]
        exact ⟨a1, a2, a3, a4, a5⟩

/-- The handler-state invariant maintained while `autocommit` is false and
a positive `commitfreq = k` is set: configuration is stable, the counter
stays below `k` and within the history, and the history stays within its
capacity `2k`. -/
def PGInv (k : Nat) (s : PG) : Prop :=
  s.autocommit = false ∧ s.commitfreq = some k ∧ s.cap = 2 * k ∧
  s.uncommitted ≤ s.history.length ∧ s.uncommitted < k ∧
  s.history.length ≤ s.cap

/-- One `do_output` call preserves the invariant, for every driver outcome
except a decoding failure. -/
theorem do_output_preserves_inv (k : Nat) (s : PG) (p : Params) (o : Oracle)
    (hk : 0 < k) (hinv : PGInv k s) (hne : o.execOut ≠ ExecOut.unicodeErr) :
    PGInv k (do_output s p o).state := by
  obtain ⟨hac, hf, hcap, hle, hlt, hhl⟩ := hinv
  cases he : o.execOut with
  | unicodeErr => exact absurd he hne
  | ok =>
      have hlen := dequeAppend_length s.cap s.history p
      by_cases hge : k ≤ s.uncommitted + 1
      · have hst : (do_output s p o).state
            = { s with history := dequeAppend s.cap s.history p,
                       uncommitted := 0 } := by
          simp [do_output, he, hac, check_commit, hf, hge]
        rw [hst]
        refine ⟨hac, hf, hcap, Nat.zero_le _, hk, ?_⟩
        show (dequeAppend s.cap s.history p).length ≤ s.cap
        rw [hlen]
        omega
      · have hst : (do_output s p o).state
            = { s with history := dequeAppend s.cap s.history p,
                       uncommitted := s.uncommitted + 1 } := by
          simp [do_output, he, hac, check_commit, hf, hge]
        rw [hst]
        refine ⟨hac, hf, hcap, ?_, ?_, ?_⟩
        rotate_left
        · show s.uncommitted + 1 < k
          omega
        rotate_right
        · show s.uncommitted + 1 ≤ (dequeAppend s.cap s.history p).length
          rw [hlen]
          omega
        · show (dequeAppend s.cap s.history p).length ≤ s.cap
          rw [hlen]
          omega
  | pgErr =>
      have hst : (do_output s p o).state = (retry s s.uncommitted o).state := by
        simp [do_output, he, hac]
      rw [hst]
      rcases Nat.eq_zero_or_pos s.uncommitted with h0 | hpos
      · simp only [retry, h0, if_true]
        exact ⟨hac, hf, hcap, hle, hlt, hhl⟩
      · have hne0 : ¬ s.uncommitted = 0 := by omega
        by_cases hrb : o.rollbackOk = false
        · simp only [retry, hne0, if_false, hrb, if_true]
          exact ⟨hac, hf, hcap, hle, hlt, hhl⟩
        · have hnlt : ¬ s.history.length < s.uncommitted := Nat.not_lt.mpr hle
          have hst2 : (retry s s.uncommitted o).state
              = replayState s
                  (s.history.drop (s.history.length - s.uncommitted)) 0 o := by
            simp [retry, hne0, hrb, hnlt]
          rw [hst2]
          obtain ⟨a1, a2, a3, a4, a5⟩ :=
            replayState_fields
              (s.history.drop (s.history.length - s.uncommitted)) 0 o s
          rw [PGInv, a1, a2, a3, a4]
          exact ⟨hac, hf, hcap, le_trans a5 hle, lt_of_le_of_lt a5 hlt, hhl⟩

/-- A run of handle calls without decoding failures preserves the
invariant, whether or not it aborts on a propagated exception. -/
theorem runSeq_preserves_inv (k : Nat) (steps : List (Params × Oracle)) :
    ∀ s : PG, 0 < k → PGInv k s →
      (∀ st ∈ steps, (st.2).execOut ≠ ExecOut.unicodeErr) →
      PGInv k (runSeq s steps).state := by
  induction steps with
  | nil => intro s _ hinv _; exact hinv
  | cons st rest ih =>
      obtain ⟨p, o⟩ := st
      intro s hk hinv hall
      have hne := hall (p, o) (List.mem_cons_self _ _)
      have hinv' := do_output_preserves_inv k s p o hk hinv hne
      cases hra : (do_output s p o).raised with
      | some e =>
          rw [runSeq_cons_raise s p o rest e hra]
          exact hinv'
      | none =>
          rw [runSeq_cons_ok s p o rest hra]
          exact ih (do_output s p o).state hk hinv'
            (fun st h => hall st (List.mem_cons_of_mem _ h))

/-- Claim C6 (corrected): the invariant `uncommitted ≤ len(history)` holds
after every sequence of handle calls from construction, provided a
positive `commitfreq` is set and no call hits a decoding failure — a
decoding-failed record increments the counter without a history append and
violates it (and without a `commitfreq`, 2001 successful writes overflow
the 2000-entry history while the counter keeps growing). -/
theorem C6_amended_invariant (k : Nat) (steps : List (Params × Oracle))
    (hk : 0 < k)
    (hall : ∀ st ∈ steps, (st.2).execOut ≠ ExecOut.unicodeErr) :
    (runSeq (pgInit false (some k)) steps).state.uncommitted
      ≤ (runSeq (pgInit false (some k)) steps).state.history.length := by
  have hinit : PGInv k (pgInit false (some k)) := by
    refine ⟨rfl, rfl, ?_, Nat.le_refl 0, hk, ?_⟩
    · simp [pgInit, Nat.pos_iff_ne_zero.mp hk]
    · simp [pgInit]
  exact (runSeq_preserves_inv k steps (pgInit false (some k)) hk hinit
    hall).2.2.2.1

/-- A successful write followed by a driver-failed write. -/
def c6steps : List (Params × Oracle) :=
  [(["a", "1"], allOkOracle), (["b", "2"], writeFailOracle)]

/-- Claim C6 witness: the amended invariant at a concrete input. -/
theorem C6_amended_witness :
    (0 < 3 ∧ ∀ st ∈ c6steps, (st.2).execOut ≠ ExecOut.unicodeErr) ∧
    (runSeq (pgInit false (some 3)) c6steps).state.uncommitted
      ≤ (runSeq (pgInit false (some 3)) c6steps).state.history.length :=
  ⟨⟨by decide, by decide⟩,
   C6_amended_invariant 3 c6steps (by decide) (by decide)⟩
